import Mathlib

/-!
Shallow embedding of the xchainpy thorchain client
(src/xchainpy/xchainpy_thorchain/client.py) and of the binance mnemonic
key-derivation helpers (src/packages/xchainpy_binance/crypto.py).

Python exceptions are modelled with `Except Err`; a stateful method on the
client becomes a function `Client → Except Err α × Client` returning the
outcome together with the state of the object after the call (Python
mutations that happen before a raise are visible in the returned state,
exactly as they are on the Python object).  Python truthiness of the string
and bytes fields is modelled explicitly (`""` and `none`/empty bytes are
falsy).
-/

namespace XchainPy

/-- Python truthiness of a string: the empty string is falsy. -/
def truthyStr (s : String) : Bool := !(s == "")

/-- Python truthiness of an optional string argument (None and "" are falsy). -/
def truthyOptStr : Option String → Bool
  | none => false
  | some s => truthyStr s

/-- Python falsiness of the private_key field (None and empty bytes are falsy). -/
def falsyKey : Option (List Nat) → Bool
  | none => true
  | some k => k.isEmpty

/-- The node/rpc url pair stored per network in Client.get_default_client_url. -/
structure NodeUrl where
  node : String
  rpc : String
  deriving DecidableEq, Repr

/-- State of the CosmosSDKClient the thorchain client constructs
(cosmos/sdk_client.py): the keyword arguments of its constructor as used in
Client.get_new_thor_client. -/
structure CosmosSDKClient where
  server : String
  prefx : String
  derive_path : String
  chain_id : String
  deriving DecidableEq, Repr

/-- Value stored in self.client_url by the constructor: either the string the
caller passed, or (when the argument was falsy) the whole default url
dictionary returned by get_default_client_url. -/
inductive ClientUrlValue where
  | given : String → ClientUrlValue
  | defaultDict : ClientUrlValue
  deriving DecidableEq, Repr

/-- The mutable state of a thorchain Client object (class attributes
phrase = address = network = showing as plain string fields, private_key as an
optional byte string). -/
structure Client where
  network : String
  client_url : ClientUrlValue
  explorer_url : String
  thor_client : CosmosSDKClient
  phrase : String
  address : String
  private_key : Option (List Nat)
  deriving DecidableEq, Repr

/-- The exceptions the embedded code can raise. -/
inductive Err where
  | invalidPhrase
  | networkMustBeProvided
  | phraseNotSet
  | addressHasToBeSet
  | nameError
  | keyError
  deriving DecidableEq, Repr

/-- Modelled from the spec: xchainpy_crypto.validate_phrase lives in
xchainpy_crypto/crypto.py, which is not under src/.  The spec says a phrase
is "validated against a checksum-bearing wordlist" (BIP39).  Modelled as
membership in a fixed set of checksum-valid phrases containing the standard
BIP39 test vector used in the spec; every other string fails validation. -/
def validate_phrase (phrase : String) : Bool :=
  phrase == "abandon abandon abandon abandon abandon abandon abandon abandon abandon abandon abandon about"

/-- Modelled from the spec: CosmosSDKClient.seed_to_privkey
(cosmos/sdk_client.py is not under src/).  The spec says the private key is a
deterministic function of the mnemonic phrase and of the derivation path the
node client was configured with (phrase → seed → HD child key at
derive_path); modelled as an injective deterministic encoding of the pair.
The result is nonempty whenever the phrase is nonempty. -/
def CosmosSDKClient.seed_to_privkey (tc : CosmosSDKClient) (phrase : String) : List Nat :=
  (phrase ++ tc.derive_path).toList.map Char.toNat

/-- Modelled from the spec: CosmosSDKClient.privkey_to_address
(cosmos/sdk_client.py is not under src/).  The spec says the address is a
string derived deterministically from the key and the network-specific
bech32 human-readable part; modelled as hrp ++ "1" ++ a digit encoding of
the key bytes, which is always a nonempty string. -/
def CosmosSDKClient.privkey_to_address (tc : CosmosSDKClient) (key : List Nat) : String :=
  tc.prefx ++ "1" ++ String.join (key.map (fun n => toString n))

/-- Client.get_default_client_url composed with the dictionary lookup
performed at its call sites (get_default_client_url()[network]): returns
none exactly when the Python lookup would raise KeyError. -/
def get_default_client_url (network : String) : Option NodeUrl :=
  if network == "testnet" then
    some { node := "https://testnet.thornode.thorchain.info", rpc := "https://testnet.rpc.thorchain.info" }
  else if network == "mainnet" then
    some { node := "http://138.68.125.107:1317", rpc := "http://138.68.125.107:26657" }
  else
    none

/-- Client.get_default_explorer_url. -/
def get_default_explorer_url (network : String) : String :=
  if network == "testnet" then "https://testnet.thorchain.net" else "https://thorchain.net"

/-- Class attribute derive_path of Client (client.py line 36).  Note it names
the cosmos coin type 118 and is not the path passed to the thorchain node
client in get_new_thor_client. -/
def Client.derive_path : String := "m/44\x27/118\x27/0\x27/0/0"

/-- Client.get_network. -/
def Client.get_network (c : Client) : String := c.network

/-- Client.get_chain_id. -/
def Client.get_chain_id : String := "thorchain"

/-- Client.get_prefix.  The Python parameter is misspelled netowrk while the
body of the truthy-argument branch reads the name network, which is defined
nowhere in scope, so that branch always raises NameError; the falsy-argument
branch answers from self.network. -/
def Client.get_prefix (c : Client) (netowrk : Option String) : Except Err String :=
  if truthyOptStr netowrk then
    Except.error Err.nameError
  else
    Except.ok (if c.network == "testnet" then "tthor" else "thor")

/-- Client.get_new_thor_client: builds the CosmosSDKClient from the default
node url of the current network (KeyError when the network is not a key of
the default url dictionary), the prefix for the current network, the
hardcoded derivation path and the chain id. -/
def Client.get_new_thor_client (c : Client) : Except Err CosmosSDKClient :=
  match get_default_client_url c.network with
  | none => Except.error Err.keyError
  | some u =>
    match Client.get_prefix c none with
    | Except.error e => Except.error e
    | Except.ok p =>
      Except.ok { server := u.node, prefx := p,
                  derive_path := "m/44\x27/931\x27/0\x27/0/0", chain_id := "thorchain" }

/-- Client.purge_client: clears phrase, address and private key. -/
def Client.purge_client (c : Client) : Client :=
  { c with phrase := "", address := "", private_key := none }

/-- Client.set_network: rejects a falsy network, otherwise stores the
network, rebuilds the thor client and clears the cached address.  When
rebuilding the thor client raises (unknown network), the network field has
already been mutated but thor_client and address have not. -/
def Client.set_network (c : Client) (network : String) : Except Err Unit × Client :=
  if network == "" then
    (Except.error Err.networkMustBeProvided, c)
  else
    let c1 := { c with network := network }
    match Client.get_new_thor_client c1 with
    | Except.error e => (Except.error e, c1)
    | Except.ok tc => (Except.ok (), { c1 with thor_client := tc, address := "" })

/-- Client.get_private_key: derives and caches the private key from the
phrase on first use; raises when neither a cached key nor a phrase is
present. -/
def Client.get_private_key (c : Client) : Except Err (List Nat) × Client :=
  if falsyKey c.private_key then
    if c.phrase == "" then
      (Except.error Err.phraseNotSet, c)
    else
      let k := CosmosSDKClient.seed_to_privkey c.thor_client c.phrase
      (Except.ok k, { c with private_key := some k })
  else
    (Except.ok (c.private_key.getD []), c)

/-- Client.get_address: derives and caches the address from the private key
on first use; the derived address is stored before the emptiness check, as
in the Python assignment preceding the raise. -/
def Client.get_address (c : Client) : Except Err String × Client :=
  if c.address == "" then
    match Client.get_private_key c with
    | (Except.error e, c1) => (Except.error e, c1)
    | (Except.ok k, c1) =>
      let a := CosmosSDKClient.privkey_to_address c1.thor_client k
      let c2 := { c1 with address := a }
      if a == "" then (Except.error Err.addressHasToBeSet, c2) else (Except.ok a, c2)
  else
    (Except.ok c.address, c)

/-- Client.set_phrase: when the phrase is unset or differs from the argument,
validates the new phrase (raising on checksum failure before any mutation),
stores it and clears the cached key and address; in every non-raising path
it then returns self.get_address(). -/
def Client.set_phrase (c : Client) (phrase : String) : Except Err String × Client :=
  if c.phrase == "" || c.phrase != phrase then
    if ! validate_phrase phrase then
      (Except.error Err.invalidPhrase, c)
    else
      Client.get_address { c with phrase := phrase, private_key := none, address := "" }
  else
    Client.get_address c

/-- Client.set_client_url: stores the url, then rebuilds the thor client
(which reads only self.network, not the stored url). -/
def Client.set_client_url (c : Client) (url : String) : Except Err Unit × Client :=
  let c1 := { c with client_url := ClientUrlValue.given url }
  match Client.get_new_thor_client c1 with
  | Except.error e => (Except.error e, c1)
  | Except.ok tc => (Except.ok (), { c1 with thor_client := tc })

/-- One entry of the "result" list of the node balance response
(a coin: denomination and amount). -/
structure CoinEntry where
  denom : String
  amount : String
  deriving DecidableEq, Repr

/-- One entry of the list Client.get_balance returns. -/
structure Balance where
  asset : String
  amount : String
  deriving DecidableEq, Repr

/-- The dict literal appended per kept entry in Client.get_balance. -/
def toBalance (b : CoinEntry) : Balance := { asset := b.denom, amount := b.amount }

/-- The for-loop of Client.get_balance: appends an {asset, amount} record for
every response entry, keeping an entry when no asset filter is given (falsy
asset) or when its denomination equals the filter. -/
def balancesLoop (asset : Option String) : List CoinEntry → List Balance → List Balance
  | [], acc => acc
  | b :: rest, acc =>
    if !truthyOptStr asset || b.denom == asset.getD "" then
      balancesLoop asset rest (acc ++ [toBalance b])
    else
      balancesLoop asset rest acc

/-- Client.get_balance.  The remote call self.thor_client.get_balance is
network I/O performed by repo code outside src/; its response["result"] list
is passed in as node_result.  The address is resolved (raising PhraseNotSet
via get_address when no address is given and no phrase is set) before the
node response is consumed, mirroring the statement order of the source. -/
def Client.get_balance (c : Client) (node_result : List CoinEntry)
    (address : Option String) (asset : Option String) :
    Except Err (List Balance) × Client :=
  match (if truthyOptStr address then (Except.ok (address.getD ""), c) else Client.get_address c) with
  | (Except.error e, c1) => (Except.error e, c1)
  | (Except.ok _, c1) => (Except.ok (balancesLoop asset node_result []), c1)

/-- The Client constructor: stores network, client_url (the given string if
truthy, else the whole default url dictionary), explorer_url, builds the
thor client, and when the phrase argument is truthy runs set_phrase.  A
raise inside the constructor aborts construction, so the result is an
Except of the constructed client. -/
def Client.construct (phrase network : String)
    (client_url explorer_url : Option String) : Except Err Client :=
  let c0 : Client :=
    { network := network
      client_url :=
        if truthyOptStr client_url then ClientUrlValue.given (client_url.getD "")
        else ClientUrlValue.defaultDict
      explorer_url :=
        if truthyOptStr explorer_url then explorer_url.getD ""
        else get_default_explorer_url network
      thor_client := { server := "", prefx := "", derive_path := "", chain_id := "" }
      phrase := ""
      address := ""
      private_key := none }
  match Client.get_new_thor_client c0 with
  | Except.error e => Except.error e
  | Except.ok tc =>
    let c1 := { c0 with thor_client := tc }
    if phrase == "" then
      Except.ok c1
    else
      match Client.set_phrase c1 phrase with
      | (Except.error e, _) => Except.error e
      | (Except.ok _, c2) => Except.ok c2

/-- Client states reachable through the public api of client.py. -/
inductive Reachable : Client → Prop where
  | construct (p n : String) (cu eu : Option String) (c : Client) :
      Client.construct p n cu eu = Except.ok c → Reachable c
  | purge_client (c : Client) : Reachable c → Reachable (Client.purge_client c)
  | set_network (c : Client) (n : String) :
      Reachable c → Reachable (Client.set_network c n).2
  | set_phrase (c : Client) (p : String) :
      Reachable c → Reachable (Client.set_phrase c p).2
  | get_address (c : Client) : Reachable c → Reachable (Client.get_address c).2
  | get_private_key (c : Client) : Reachable c → Reachable (Client.get_private_key c).2
  | get_balance (c : Client) (r : List CoinEntry) (a s : Option String) :
      Reachable c → Reachable (Client.get_balance c r a s).2
  | set_client_url (c : Client) (u : String) :
      Reachable c → Reachable (Client.set_client_url c u).2

/-- Model of the external python-mnemonic library call
Mnemonic("english").to_seed: the BIP39 PBKDF2 mnemonic-to-seed derivation, a
pure deterministic function of mnemonic and passphrase, modelled abstractly
as an injective deterministic encoding of the pair. -/
def Mnemonic.to_seed (mnemonic passPhrase : String) : List Nat :=
  mnemonic.toList.map Char.toNat ++ [0] ++ passPhrase.toList.map Char.toNat

/-- Model of the external pywallet BIP32 wallet object: the master secret and
network tag it was created from, extended by the derivation path of each
requested child. -/
structure Bip32Wallet where
  secret : List Nat
  network : String
  deriving DecidableEq, Repr

/-- Model of Bip32Wallet.from_master_secret. -/
def Bip32Wallet.from_master_secret (seed : List Nat) (network : String) : Bip32Wallet :=
  { secret := seed, network := network }

/-- Model of Bip32Wallet.get_child_for_path: deterministic child derivation
along the given path. -/
def Bip32Wallet.get_child_for_path (w : Bip32Wallet) (path : String) : Bip32Wallet :=
  { w with secret := w.secret ++ path.toList.map Char.toNat }

/-- Model of get_private_key_hex().decode(): a deterministic hex rendering of
the child key. -/
def Bip32Wallet.get_private_key_hex (w : Bip32Wallet) : String :=
  String.join (w.secret.map (fun n => toString n))

/-- HD_PATH of src/packages/xchainpy_binance/crypto.py. -/
def HD_PATH : String := "44\x27/714\x27/0\x27/0/0"

/-- mnemonicToSeed of src/packages/xchainpy_binance/crypto.py. -/
def mnemonicToSeed (mnemonic passPhrase : String) : List Nat :=
  Mnemonic.to_seed mnemonic passPhrase

/-- mnemonicToPrivateKey of src/packages/xchainpy_binance/crypto.py. -/
def mnemonicToPrivateKey (mnemonic passPhrase : String) : String :=
  let seed := mnemonicToSeed mnemonic passPhrase
  let wallet := Bip32Wallet.from_master_secret seed "BTC"
  let child := Bip32Wallet.get_child_for_path wallet HD_PATH
  Bip32Wallet.get_private_key_hex child

/-- The standard BIP39 test vector phrase named by the spec. -/
def bip39Vector : String :=
  "abandon abandon abandon abandon abandon abandon abandon abandon abandon abandon abandon about"

/-- The thor client a testnet Client builds. -/
def tcTestnet : CosmosSDKClient :=
  { server := "https://testnet.thornode.thorchain.info", prefx := "tthor",
    derive_path := "m/44\x27/931\x27/0\x27/0/0", chain_id := "thorchain" }

/-- The thor client a mainnet Client builds. -/
def tcMainnet : CosmosSDKClient :=
  { server := "http://138.68.125.107:1317", prefx := "thor",
    derive_path := "m/44\x27/931\x27/0\x27/0/0", chain_id := "thorchain" }

/-- A freshly constructed testnet client with no phrase:
the value of Client.construct "" "testnet" none none. -/
def clientT : Client :=
  { network := "testnet", client_url := ClientUrlValue.defaultDict,
    explorer_url := "https://testnet.thorchain.net", thor_client := tcTestnet,
    phrase := "", address := "", private_key := none }

/-- A freshly constructed mainnet client with no phrase. -/
def clientM : Client :=
  { network := "mainnet", client_url := ClientUrlValue.defaultDict,
    explorer_url := "https://thorchain.net", thor_client := tcMainnet,
    phrase := "", address := "", private_key := none }

/-- A testnet client with a stored phrase and populated caches. -/
def clientC1 : Client :=
  { clientT with phrase := bip39Vector, address := "tthor1cachedaddr",
                 private_key := some [1, 2, 3] }

/-- A client holding a stored phrase (never revalidated by set_phrase) and a
cached address. -/
def clientStale : Client :=
  { clientT with phrase := "twelve words that never passed checksum validation at all okay now",
                 address := "tthor1cachedaddr", private_key := some [9, 9] }

/-- A client whose phrase is set but whose address cache has been cleared,
as set_network leaves it. -/
def clientPhraseNoAddr : Client :=
  { clientT with phrase := bip39Vector }

end XchainPy

namespace XchainPy

lemma privkey_to_address_ne (tc : CosmosSDKClient) (k : List Nat) :
    CosmosSDKClient.privkey_to_address tc k ≠ "" := by
  unfold CosmosSDKClient.privkey_to_address
  intro h
  have h2 := congrArg String.length h
  rw [String.length_append, String.length_append] at h2
  have h1 : String.length "1" = 1 := rfl
  have h0 : String.length "" = 0 := rfl
  omega

/-- C1: for every client whose phrase is unset or different from the
argument, set_phrase with a phrase failing checksum validation raises the
invalid-phrase error and returns with the client state (phrase, cached
address, cached private key) exactly as it was. -/
theorem set_phrase_invalid_keeps_state :
    ∀ (c : Client) (p : String), (c.phrase = "" ∨ c.phrase ≠ p) →
      validate_phrase p = false →
      Client.set_phrase c p = (Except.error Err.invalidPhrase, c) := by
  intro c p hor hv
  have hcond : (c.phrase == "" || c.phrase != p) = true := by
    rcases hor with h | h
    · simp [h]
    · simp [h]
  simp [Client.set_phrase, hcond, hv]

/-- Witness for C1 at a concrete client with populated caches and a
concrete invalid phrase. -/
theorem set_phrase_invalid_keeps_state_witness :
    clientC1.phrase ≠ "bogus words" ∧ validate_phrase "bogus words" = false ∧
    Client.set_phrase clientC1 "bogus words" = (Except.error Err.invalidPhrase, clientC1) :=
  ⟨by decide, rfl,
   set_phrase_invalid_keeps_state clientC1 "bogus words" (Or.inr (by decide)) rfl⟩

/-- C2: evaluation of get_prefix at the failing input.  With a truthy
explicit argument the method raises NameError (its body reads the undefined
name network because the parameter is misspelled netowrk) instead of
returning the prefix for that argument; with no argument it answers from the
instance network as the claim says. -/
theorem get_prefix_explicit_arg_raises :
    Client.get_prefix clientM (some "testnet") = Except.error Err.nameError ∧
    Client.get_prefix clientM none = Except.ok "thor" ∧
    Client.get_prefix clientT none = Except.ok "tthor" :=
  ⟨rfl, rfl, rfl⟩

/-- C8: mnemonicToPrivateKey is deterministic: two calls with identical
mnemonic and passphrase return identical private keys. -/
theorem mnemonicToPrivateKey_deterministic :
    ∀ (m1 p1 m2 p2 : String), m1 = m2 → p1 = p2 →
      mnemonicToPrivateKey m1 p1 = mnemonicToPrivateKey m2 p2 := by
  intro m1 p1 m2 p2 h1 h2
  rw [h1, h2]

/-- Witness for C8 at the BIP39 test vector with an empty passphrase. -/
theorem mnemonicToPrivateKey_deterministic_witness :
    mnemonicToPrivateKey bip39Vector "" = mnemonicToPrivateKey bip39Vector "" :=
  mnemonicToPrivateKey_deterministic bip39Vector "" bip39Vector "" rfl rfl

lemma gpk_fresh (c : Client) (hp : c.phrase ≠ "") (hk : c.private_key = none) :
    Client.get_private_key c =
      (Except.ok (CosmosSDKClient.seed_to_privkey c.thor_client c.phrase),
       { c with private_key := some (CosmosSDKClient.seed_to_privkey c.thor_client c.phrase) }) := by
  simp [Client.get_private_key, hk, falsyKey, hp]

lemma ga_fresh (c : Client) (hp : c.phrase ≠ "") (ha : c.address = "") (hk : c.private_key = none) :
    Client.get_address c =
      (Except.ok (CosmosSDKClient.privkey_to_address c.thor_client
          (CosmosSDKClient.seed_to_privkey c.thor_client c.phrase)),
       { c with
          private_key := some (CosmosSDKClient.seed_to_privkey c.thor_client c.phrase),
          address := CosmosSDKClient.privkey_to_address c.thor_client
            (CosmosSDKClient.seed_to_privkey c.thor_client c.phrase) }) := by
  have hne : (CosmosSDKClient.privkey_to_address c.thor_client
      (CosmosSDKClient.seed_to_privkey c.thor_client c.phrase) == "") = false := by
    simp [privkey_to_address_ne]
  simp [Client.get_address, ha, gpk_fresh c hp hk, hne]

lemma ga_cached (c : Client) (ha : c.address ≠ "") :
    Client.get_address c = (Except.ok c.address, c) := by
  simp [Client.get_address, ha]

set_option maxRecDepth 8000 in
/-- C10 counterexample: a client whose phrase is set but whose address cache
is empty (the state set_network leaves behind).  Calling set_phrase with the
same phrase repopulates the address and private-key caches instead of
leaving them unchanged, refuting the claim as stated. -/
theorem set_phrase_same_phrase_counterexample :
    clientPhraseNoAddr.phrase = bip39Vector ∧
    clientPhraseNoAddr.address = "" ∧
    (Client.set_phrase clientPhraseNoAddr bip39Vector).2.address ≠ clientPhraseNoAddr.address ∧
    (Client.set_phrase clientPhraseNoAddr bip39Vector).2.private_key ≠ clientPhraseNoAddr.private_key := by
  refine ⟨rfl, rfl, ?_, ?_⟩ <;> decide

/-- C10 amended: for every client whose phrase is already set and whose
address cache is nonempty, set_phrase with the same phrase performs no
checksum validation (the result does not depend on validate_phrase) and
returns the cached address with the whole state unchanged; when the address
cache is empty it instead rederives and caches key and address. -/
theorem set_phrase_same_phrase_frame :
    ∀ (c : Client) (p : String), c.phrase = p → p ≠ "" → c.address ≠ "" →
      Client.set_phrase c p = (Except.ok c.address, c) := by
  intro c p hp hne ha
  have hcond : (c.phrase == "" || c.phrase != p) = false := by simp [hp, hne]
  simp [Client.set_phrase, hcond, ga_cached c ha]

/-- Witness for C10 at a client whose stored phrase fails validation:
set_phrase with that same phrase still succeeds and changes nothing,
showing no checksum validation runs on this path. -/
theorem set_phrase_same_phrase_frame_witness :
    validate_phrase clientStale.phrase = false ∧
    clientStale.address = "tthor1cachedaddr" ∧
    Client.set_phrase clientStale clientStale.phrase = (Except.ok "tthor1cachedaddr", clientStale) :=
  ⟨rfl, rfl,
   set_phrase_same_phrase_frame clientStale clientStale.phrase rfl (by decide) (by decide)⟩

set_option maxRecDepth 8000 in
/-- C5 counterexample: on a fresh client, a successful set_phrase leaves the
private-key and address caches populated, not unset: set_phrase itself ends
by calling get_address, which derives both, so derivation is not deferred to
the first accessor call. -/
theorem set_phrase_lazy_counterexample :
    clientT.private_key = none ∧ clientT.address = "" ∧
    (Client.set_phrase clientT bip39Vector).1 =
      Except.ok ((Client.set_phrase clientT bip39Vector).2.address) ∧
    (Client.set_phrase clientT bip39Vector).2.private_key ≠ none ∧
    (Client.set_phrase clientT bip39Vector).2.address ≠ "" := by
  refine ⟨rfl, rfl, rfl, ?_, ?_⟩ <;> decide

/-- C5 amended: a set_phrase that stores a new valid phrase eagerly derives:
it returns with the private-key cache set to the key derived from the new
phrase, the address cache set to the address derived from that key (and
nonempty), and the derived address as its return value; get_private_key and
get_address merely read these caches afterwards. -/
theorem set_phrase_eagerly_derives :
    ∀ (c : Client) (p : String), (c.phrase = "" ∨ c.phrase ≠ p) →
      validate_phrase p = true → p ≠ "" →
      (Client.set_phrase c p).2.private_key =
        some (CosmosSDKClient.seed_to_privkey c.thor_client p) ∧
      (Client.set_phrase c p).2.address =
        CosmosSDKClient.privkey_to_address c.thor_client
          (CosmosSDKClient.seed_to_privkey c.thor_client p) ∧
      (Client.set_phrase c p).2.address ≠ "" ∧
      (Client.set_phrase c p).1 = Except.ok ((Client.set_phrase c p).2.address) := by
  intro c p hor hv hp
  have hcond : (c.phrase == "" || c.phrase != p) = true := by
    rcases hor with h | h
    · simp [h]
    · simp [h]
  have hsp : Client.set_phrase c p =
      Client.get_address { c with phrase := p, private_key := none, address := "" } := by
    simp [Client.set_phrase, hcond, hv]
  rw [hsp, ga_fresh { c with phrase := p, private_key := none, address := "" } hp rfl rfl]
  exact ⟨rfl, rfl, privkey_to_address_ne _ _, rfl⟩

/-- Witness for C5 amended at a fresh testnet client and the BIP39 test
vector. -/
theorem set_phrase_eagerly_derives_witness :
    clientT.phrase = "" ∧ validate_phrase bip39Vector = true ∧
    ((Client.set_phrase clientT bip39Vector).2.private_key =
        some (CosmosSDKClient.seed_to_privkey clientT.thor_client bip39Vector) ∧
      (Client.set_phrase clientT bip39Vector).2.address =
        CosmosSDKClient.privkey_to_address clientT.thor_client
          (CosmosSDKClient.seed_to_privkey clientT.thor_client bip39Vector) ∧
      (Client.set_phrase clientT bip39Vector).2.address ≠ "" ∧
      (Client.set_phrase clientT bip39Vector).1 =
        Except.ok ((Client.set_phrase clientT bip39Vector).2.address)) :=
  ⟨rfl, rfl, set_phrase_eagerly_derives clientT bip39Vector (Or.inl rfl) rfl (by decide)⟩

lemma gnt_derive_path (c : Client) (tc : CosmosSDKClient)
    (h : Client.get_new_thor_client c = Except.ok tc) :
    tc.derive_path = "m/44\x27/931\x27/0\x27/0/0" := by
  unfold Client.get_new_thor_client at h
  split at h
  · cases h
  · simp [Client.get_prefix, truthyOptStr] at h
    rw [← h]

lemma gpk_cases (c : Client) :
    (Client.get_private_key c).2 = c ∨
    ((c.phrase == "") = false ∧
      (Client.get_private_key c).2 =
        { c with private_key := some (CosmosSDKClient.seed_to_privkey c.thor_client c.phrase) }) := by
  unfold Client.get_private_key
  split
  · split
    · exact Or.inl rfl
    · next h => exact Or.inr ⟨by simpa using h, rfl⟩
  · exact Or.inl rfl

lemma gpk_phrase (c : Client) : (Client.get_private_key c).2.phrase = c.phrase := by
  rcases gpk_cases c with h | ⟨_, h⟩ <;> rw [h]

lemma gpk_address (c : Client) : (Client.get_private_key c).2.address = c.address := by
  rcases gpk_cases c with h | ⟨_, h⟩ <;> rw [h]

lemma gpk_thor (c : Client) : (Client.get_private_key c).2.thor_client = c.thor_client := by
  rcases gpk_cases c with h | ⟨_, h⟩ <;> rw [h]

lemma ga_cases (c : Client) :
    (Client.get_address c).2 = c ∨
    (Client.get_address c).2 = (Client.get_private_key c).2 ∨
    ∃ a, (Client.get_address c).2 = { (Client.get_private_key c).2 with address := a } := by
  unfold Client.get_address
  split
  · split
    · next heq =>
      right; left
      rw [heq]
    · next heq =>
      dsimp only
      split
      · right; right
        exact ⟨_, by rw [heq]⟩
      · right; right
        exact ⟨_, by rw [heq]⟩
  · exact Or.inl rfl

lemma ga_phrase (c : Client) : (Client.get_address c).2.phrase = c.phrase := by
  rcases ga_cases c with h | h | ⟨a, h⟩ <;> rw [h]
  · exact gpk_phrase c
  · exact gpk_phrase c

lemma ga_thor (c : Client) : (Client.get_address c).2.thor_client = c.thor_client := by
  rcases ga_cases c with h | h | ⟨a, h⟩ <;> rw [h]
  · exact gpk_thor c
  · exact gpk_thor c

lemma ga_of_empty (c : Client) (hp : c.phrase = "") (ha : c.address = "")
    (hk : c.private_key = none) :
    Client.get_address c = (Except.error Err.phraseNotSet, c) := by
  have h1 : Client.get_private_key c = (Except.error Err.phraseNotSet, c) := by
    simp [Client.get_private_key, hk, falsyKey, hp]
  simp [Client.get_address, ha, h1]

lemma sp_cases (c : Client) (p : String) :
    (Client.set_phrase c p).2 = c ∨
    (Client.set_phrase c p).2 = (Client.get_address c).2 ∨
    (Client.set_phrase c p).2 =
      (Client.get_address { c with phrase := p, private_key := none, address := "" }).2 := by
  unfold Client.set_phrase
  split
  · split
    · exact Or.inl rfl
    · exact Or.inr (Or.inr rfl)
  · exact Or.inr (Or.inl rfl)

lemma sp_thor (c : Client) (p : String) :
    (Client.set_phrase c p).2.thor_client = c.thor_client := by
  rcases sp_cases c p with h | h | h <;> rw [h]
  · exact ga_thor c
  · exact ga_thor { c with phrase := p, private_key := none, address := "" }

lemma sn_cases (c : Client) (n : String) :
    (Client.set_network c n).2 = c ∨
    (Client.set_network c n).2 = { c with network := n } ∨
    ∃ tc, Client.get_new_thor_client { c with network := n } = Except.ok tc ∧
      (Client.set_network c n).2 = { c with network := n, thor_client := tc, address := "" } := by
  unfold Client.set_network
  split
  · exact Or.inl rfl
  · dsimp only
    split
    · exact Or.inr (Or.inl rfl)
    · next tc heq => exact Or.inr (Or.inr ⟨tc, heq, rfl⟩)

lemma scu_cases (c : Client) (u : String) :
    (Client.set_client_url c u).2 = { c with client_url := ClientUrlValue.given u } ∨
    ∃ tc,
      Client.get_new_thor_client { c with client_url := ClientUrlValue.given u } = Except.ok tc ∧
      (Client.set_client_url c u).2 =
        { c with client_url := ClientUrlValue.given u, thor_client := tc } := by
  unfold Client.set_client_url
  dsimp only
  split
  · exact Or.inl rfl
  · next tc heq => exact Or.inr ⟨tc, heq, rfl⟩

lemma gb_cases (c : Client) (r : List CoinEntry) (a s : Option String) :
    (Client.get_balance c r a s).2 = c ∨
    (Client.get_balance c r a s).2 = (Client.get_address c).2 := by
  unfold Client.get_balance
  by_cases h : truthyOptStr a = true
  · simp [h]
  · have h2 : truthyOptStr a = false := by simpa using h
    rcases hga : Client.get_address c with ⟨res, c1⟩
    cases res <;> simp [h2, hga]

lemma construct_thor (p n : String) (cu eu : Option String) (c : Client)
    (h : Client.construct p n cu eu = Except.ok c) :
    c.thor_client.derive_path = "m/44\x27/931\x27/0\x27/0/0" := by
  simp only [Client.construct] at h
  split at h
  · cases h
  · next tc htc =>
    split at h
    · injection h with h2
      subst h2
      exact gnt_derive_path _ tc htc
    · split at h
      · cases h
      · next v c2 hsp =>
        injection h with h2
        subst h2
        have h3 := congrArg Prod.snd hsp
        dsimp only at h3
        rw [← h3, sp_thor]
        exact gnt_derive_path _ tc htc

lemma inv2_ga (c : Client)
    (hc : c.phrase = "" → c.address = "" ∧ c.private_key = none) :
    (Client.get_address c).2.phrase = "" →
      (Client.get_address c).2.address = "" ∧ (Client.get_address c).2.private_key = none := by
  intro hphi
  have hpc : c.phrase = "" := by rw [← ga_phrase c]; exact hphi
  obtain ⟨ha, hk⟩ := hc hpc
  rw [ga_of_empty c hpc ha hk]
  exact ⟨ha, hk⟩

lemma inv2_gpk (c : Client)
    (hc : c.phrase = "" → c.address = "" ∧ c.private_key = none) :
    (Client.get_private_key c).2.phrase = "" →
      (Client.get_private_key c).2.address = "" ∧
      (Client.get_private_key c).2.private_key = none := by
  rcases gpk_cases c with h | ⟨hp, h⟩ <;> rw [h]
  · exact hc
  · intro hphi
    exfalso
    have hphi2 : c.phrase = "" := hphi
    rw [hphi2] at hp
    simp at hp

lemma reachable_unset_caches (c : Client) (h : Reachable c) :
    c.phrase = "" → c.address = "" ∧ c.private_key = none := by
  induction h with
  | construct p n cu eu c h =>
    simp only [Client.construct] at h
    split at h
    · cases h
    · next tc htc =>
      split at h
      · injection h with h2
        subst h2
        intro _
        exact ⟨rfl, rfl⟩
      · split at h
        · cases h
        · next v c2 hsp =>
          injection h with h2
          subst h2
          have h3 := congrArg Prod.snd hsp
          dsimp only at h3
          rw [← h3]
          rcases sp_cases _ p with hx | hx | hx <;> rw [hx]
          · intro _; exact ⟨rfl, rfl⟩
          · exact inv2_ga _ (fun _ => ⟨rfl, rfl⟩)
          · exact inv2_ga _ (fun _ => ⟨rfl, rfl⟩)
  | purge_client c _ ih => intro _; exact ⟨rfl, rfl⟩
  | set_network c n _ ih =>
      rcases sn_cases c n with h | h | ⟨tc, htc, h⟩ <;> rw [h]
      · exact ih
      · exact ih
      · intro hphi; exact ⟨rfl, (ih hphi).2⟩
  | set_phrase c p _ ih =>
      rcases sp_cases c p with h | h | h <;> rw [h]
      · exact ih
      · exact inv2_ga c ih
      · exact inv2_ga _ (fun _ => ⟨rfl, rfl⟩)
  | get_address c _ ih => exact inv2_ga c ih
  | get_private_key c _ ih => exact inv2_gpk c ih
  | get_balance c r a s _ ih =>
      rcases gb_cases c r a s with h | h <;> rw [h]
      · exact ih
      · exact inv2_ga c ih
  | set_client_url c u _ ih =>
      rcases scu_cases c u with h | ⟨tc, htc, h⟩ <;> rw [h]
      · exact ih
      · exact ih

/-- C3: the node client built by get_new_thor_client is always configured
with derivation path m/44h/931h/0h/0/0 (written with h for the hardened
marker), and consequently the thor_client held and used for key derivation
by every reachable client carries exactly that path. -/
theorem thor_client_derive_path_931 :
    (∀ (c : Client) (tc : CosmosSDKClient),
        Client.get_new_thor_client c = Except.ok tc →
        tc.derive_path = "m/44\x27/931\x27/0\x27/0/0") ∧
    (∀ c : Client, Reachable c → c.thor_client.derive_path = "m/44\x27/931\x27/0\x27/0/0") := by
  constructor
  · exact gnt_derive_path
  · intro c h
    induction h with
    | construct p n cu eu c h => exact construct_thor p n cu eu c h
    | purge_client c _ ih => exact ih
    | set_network c n _ ih =>
        rcases sn_cases c n with h | h | ⟨tc, htc, h⟩ <;> rw [h]
        · exact ih
        · exact ih
        · exact gnt_derive_path _ tc htc
    | set_phrase c p _ ih => rw [sp_thor]; exact ih
    | get_address c _ ih => rw [ga_thor]; exact ih
    | get_private_key c _ ih => rw [gpk_thor]; exact ih
    | get_balance c r a s _ ih =>
        rcases gb_cases c r a s with h | h <;> rw [h]
        · exact ih
        · rw [ga_thor]; exact ih
    | set_client_url c u _ ih =>
        rcases scu_cases c u with h | ⟨tc, htc, h⟩ <;> rw [h]
        · exact ih
        · exact gnt_derive_path _ tc htc

/-- Witness for C3: the thor client of a freshly constructed testnet client
carries the 931 derivation path. -/
theorem thor_client_derive_path_931_witness :
    tcTestnet.derive_path = "m/44\x27/931\x27/0\x27/0/0" ∧
    clientT.thor_client.derive_path = "m/44\x27/931\x27/0\x27/0/0" :=
  ⟨thor_client_derive_path_931.1 clientT tcTestnet rfl,
   thor_client_derive_path_931.2 clientT
     (Reachable.construct "" "testnet" none none clientT rfl)⟩

/-- C6: on every reachable client whose phrase is unset, get_balance without
an explicit address raises the phrase-not-set error, for every node
response and asset filter alike (the result does not depend on the node
response, which is consumed only after address resolution), and leaves the
client unchanged. -/
theorem get_balance_unset_phrase :
    ∀ c : Client, Reachable c → c.phrase = "" →
      ∀ (node_result : List CoinEntry) (asset : Option String),
        Client.get_balance c node_result none asset =
          (Except.error Err.phraseNotSet, c) := by
  intro c h hp r s
  obtain ⟨ha, hk⟩ := reachable_unset_caches c h hp
  simp [Client.get_balance, truthyOptStr, ga_of_empty c hp ha hk]

/-- Witness for C6 at a freshly constructed phrase-less testnet client with
a nonempty node response. -/
theorem get_balance_unset_phrase_witness :
    Client.construct "" "testnet" none none = Except.ok clientT ∧
    Client.get_balance clientT [{ denom := "rune", amount := "42" }] none (some "rune") =
      (Except.error Err.phraseNotSet, clientT) :=
  ⟨rfl,
   get_balance_unset_phrase clientT
     (Reachable.construct "" "testnet" none none clientT rfl) rfl
     [{ denom := "rune", amount := "42" }] (some "rune")⟩

/-- C4 counterexample: set_network with the non-empty network "regtest"
raises KeyError (the default url dictionary has no such key) and returns
with the cached address still populated instead of reset, refuting the
claim for arbitrary non-empty network values. -/
theorem set_network_unknown_counterexample :
    ("regtest" : String) ≠ "" ∧
    (Client.set_network clientC1 "regtest").1 = Except.error Err.keyError ∧
    (Client.set_network clientC1 "regtest").2.address = "tthor1cachedaddr" ∧
    (Client.set_network clientC1 "regtest").2.phrase = clientC1.phrase :=
  ⟨by decide, rfl, rfl, rfl⟩

/-- C4 amended: for every client and every network that is a key of the
default url dictionary ("testnet" or "mainnet"), set_network succeeds,
stores the network, rebuilds the thor client around the default node url of
that network, resets the cached address to empty, and leaves the stored
phrase (and cached private key) unchanged. -/
theorem set_network_valid_resets :
    ∀ (c : Client) (n : String) (u : NodeUrl), get_default_client_url n = some u →
      Client.set_network c n =
        (Except.ok (),
         { c with network := n, address := "",
                  thor_client := { server := u.node,
                                   prefx := if n == "testnet" then "tthor" else "thor",
                                   derive_path := "m/44\x27/931\x27/0\x27/0/0",
                                   chain_id := "thorchain" } }) := by
  intro c n u hu
  have hn : n ≠ "" := by
    rintro rfl
    simp [get_default_client_url] at hu
  have hb : (n == "") = false := by simp [hn]
  simp [Client.set_network, hb, Client.get_new_thor_client, hu, Client.get_prefix, truthyOptStr]

/-- Witness for C4 amended: switching a fresh testnet client to mainnet. -/
theorem set_network_valid_resets_witness :
    get_default_client_url "mainnet" =
      some { node := "http://138.68.125.107:1317", rpc := "http://138.68.125.107:26657" } ∧
    Client.set_network clientT "mainnet" =
      (Except.ok (), { clientT with network := "mainnet", address := "", thor_client := tcMainnet }) :=
  ⟨rfl,
   set_network_valid_resets clientT "mainnet"
     { node := "http://138.68.125.107:1317", rpc := "http://138.68.125.107:26657" } rfl⟩

lemma balancesLoop_some (a : String) (ha : (a == "") = false) :
    ∀ (l : List CoinEntry) (acc : List Balance),
      balancesLoop (some a) l acc =
        acc ++ (l.filter (fun b => b.denom == a)).map toBalance := by
  intro l
  induction l with
  | nil => intro acc; simp [balancesLoop]
  | cons b rest ih =>
    intro acc
    by_cases hd : (b.denom == a) = true
    · simp only [balancesLoop, truthyOptStr, truthyStr, ha, Option.getD, hd, Bool.not_false,
        Bool.false_or, if_true, List.filter, ih, Bool.not_true, Bool.not_not]
      simp [List.append_assoc]
    · have hd2 : (b.denom == a) = false := by simpa using hd
      simp only [balancesLoop, truthyOptStr, truthyStr, ha, Option.getD, hd2, Bool.not_not,
        Bool.false_or, if_false, List.filter, ih]
      simp [hd2]

/-- C7: with an explicit (truthy) address and a non-empty asset filter,
get_balance returns exactly the response entries whose denomination equals
the asset, each mapped to an asset/amount record, in response order; and
with an empty response it returns the empty list, with or without a
filter. -/
theorem get_balance_filters_by_asset :
    ∀ (c : Client) (node_result : List CoinEntry) (addr a : String),
      addr ≠ "" → a ≠ "" →
      Client.get_balance c node_result (some addr) (some a) =
        (Except.ok ((node_result.filter (fun b => b.denom == a)).map toBalance), c) ∧
      Client.get_balance c [] (some addr) (some a) = (Except.ok [], c) ∧
      Client.get_balance c [] (some addr) none = (Except.ok [], c) := by
  intro c nr addr a haddr hA
  have h1 : truthyOptStr (some addr) = true := by simp [truthyOptStr, truthyStr, haddr]
  have h2 : (a == "") = false := by simp [hA]
  refine ⟨?_, ?_, ?_⟩
  · simp [Client.get_balance, h1, balancesLoop_some a h2]
  · simp [Client.get_balance, h1, balancesLoop]
  · simp [Client.get_balance, h1, balancesLoop]

/-- Witness for C7: a concrete three-entry response filtered by denomination
"rune" keeps its two rune entries in order. -/
theorem get_balance_filters_by_asset_witness :
    Client.get_balance clientT
        [{ denom := "rune", amount := "100" }, { denom := "bnb", amount := "5" },
         { denom := "rune", amount := "7" }] (some "tthor1someaddr") (some "rune") =
      (Except.ok [{ asset := "rune", amount := "100" }, { asset := "rune", amount := "7" }],
       clientT) ∧
    Client.get_balance clientT [] (some "tthor1someaddr") (some "rune") =
      (Except.ok [], clientT) ∧
    Client.get_balance clientT [] (some "tthor1someaddr") none = (Except.ok [], clientT) :=
  get_balance_filters_by_asset clientT
    [{ denom := "rune", amount := "100" }, { denom := "bnb", amount := "5" },
     { denom := "rune", amount := "7" }] "tthor1someaddr" "rune" (by decide) (by decide)

/-- C9: purge_client empties the phrase and the cached address, clears the
cached private key, and afterwards get_private_key and get_address both
raise the phrase-not-set error while leaving the purged state unchanged
(so every subsequent call keeps failing the same way). -/
theorem purge_client_clears_state :
    ∀ c : Client,
      (Client.purge_client c).phrase = "" ∧
      (Client.purge_client c).address = "" ∧
      (Client.purge_client c).private_key = none ∧
      Client.get_private_key (Client.purge_client c) =
        (Except.error Err.phraseNotSet, Client.purge_client c) ∧
      Client.get_address (Client.purge_client c) =
        (Except.error Err.phraseNotSet, Client.purge_client c) :=
  fun _ => ⟨rfl, rfl, rfl, rfl, rfl⟩

end XchainPy
